import Mathlib

/-!
Verification of the concurrent Sudoku solver (`sudoku.go`).

This file gives a shallow embedding of the program's data model and of the
operations the specification's claims are about:

* the candidate-set representation (`squareVal`, a 9-bit mask),
* the per-square state (`Square`) and the board (`Board`),
* the square monitor's handling of `set` and `clear` messages
  (`setAt`, `clearAt`, mirroring `squareMonitor`),
* the finalization side effect (`sendUpdates`),
* the structural analysis functions (`inspectRow`, `inspectCol`,
  `inspectBlock`, `checkConstrainedSquares`, `checkConstrainedValues`),
* the round loop of `roundLooper` (`fullRound`, `iterFullRound`), and
* the input loader (`captureBoard`).

Go's `uint16` values are embedded as `Nat`; every mask manipulated by the
program stays below `2^9`, so no wrap-around arises and `&^` is `Nat.ldiff`.
Panics in the source are embedded as the `Except.error` branch of the
analysis functions.  Goroutine scheduling is not modelled: the round
protocol makes message application sequential (a FIFO drain per phase), and
the embedding follows that order.
-/

namespace Sudoku

/-- Candidate-set bit masks (`type squareVal uint16` in the source). -/
abbrev squareVal := Nat

def one : squareVal := 1
def two : squareVal := 2
def three : squareVal := 4
def four : squareVal := 8
def five : squareVal := 16
def six : squareVal := 32
def seven : squareVal := 64
def eight : squareVal := 128
def nine : squareVal := 256

/-- `blank = one | two | ... | nine = 511`. -/
def blank : squareVal := 511

/-- Go's `a &^ b` (AND NOT): keep the bits of `a` that are not in `b`.
Written with `^^^`/`&&&` so that it evaluates by kernel reduction;
`andNot_testBit` below shows it is bitwise AND-NOT. -/
def andNot (a b : Nat) : Nat := a ^^^ (a &&& b)

/-- The message actions of the source's `action` enumeration. -/
inductive Action where
  | set
  | clear
  | pause
  | analyseRow
  | analyseCol
  | analyseBlock
deriving DecidableEq, Repr

/-- The structure selector (`rcbSelect`). -/
inductive RcbSelect where
  | row
  | column
  | block
deriving DecidableEq, Repr

/-- The source's `updateMsg` struct. -/
structure updateMsg where
  val : squareVal
  action : Action
  destR : Nat
  destC : Nat
deriving DecidableEq, Repr

/-- The mutable state of one square (`square` struct, without the channel). -/
structure Square where
  possVal : squareVal
  isFinal : Bool
deriving DecidableEq, Repr

/-- The 9x9 board, indexed by (row, column). -/
abbrev Board := Nat → Nat → Square

/-- Point update of the board at one coordinate. -/
def updateBoard (b : Board) (r c : Nat) (sq : Square) : Board :=
  fun i j => if i = r ∧ j = c then sq else b i j

/-- `bits.OnesCount16(uint16(v))`: population count of the low 16 bits. -/
def onesCount16 (v : Nat) : Nat :=
  ((List.range 16).filter (fun k => v.testBit k)).length

/-- `finalCheckVal`: a square is final when exactly one candidate remains. -/
def finalCheckVal (val : squareVal) : Bool :=
  onesCount16 val == 1

/-- `sendUpdates(r, c, msg)`: the messages a finalizing square stages for its
non-final peers — rest of the row, rest of the column, then the remainder of
its block (skipping cells already covered by the row/column passes). -/
def sendUpdates (b : Board) (r c : Nat) (val : squareVal) : List updateMsg :=
  ((List.range 9).filterMap fun j =>
    if j = c then none
    else if (b r j).isFinal then none
    else some ⟨val, .clear, r, j⟩) ++
  ((List.range 9).filterMap fun i =>
    if i = r then none
    else if (b i c).isFinal then none
    else some ⟨val, .clear, i, c⟩) ++
  (let rb := r / 3 * 3
   let cb := c / 3 * 3
   (List.range 9).filterMap fun p =>
     let i := rb + p / 3
     let j := cb + p % 3
     if i = r ∨ j = c then none
     else if (b i j).isFinal then none
     else some ⟨val, .clear, i, j⟩)

/-- `squareMonitor`'s `set` case: ignored when final; ignored when the mask
equals the current candidates; otherwise the candidates are replaced and the
square finalizes (staging peer notifications) when one candidate remains. -/
def setAt (b : Board) (r c : Nat) (val : squareVal) : Board × List updateMsg :=
  let sqr := b r c
  if sqr.isFinal then (b, [])
  else if sqr.possVal = val then (b, [])
  else
    let b' := updateBoard b r c ⟨val, finalCheckVal val⟩
    if finalCheckVal val then (b', sendUpdates b' r c val) else (b', [])

/-- `squareMonitor`'s `clear` case: ignored when final; removes the mask's
bits; no-op when nothing changes; finalizes (staging peer notifications)
when one candidate remains.  The source has no branch for the candidate set
becoming empty: `finalCheckVal 0` is `false` and processing just continues. -/
def clearAt (b : Board) (r c : Nat) (mask : squareVal) : Board × List updateMsg :=
  let sqr := b r c
  if sqr.isFinal then (b, [])
  else
    let newval := andNot sqr.possVal mask
    if newval = sqr.possVal then (b, [])
    else
      let b' := updateBoard b r c ⟨newval, finalCheckVal newval⟩
      if finalCheckVal newval then (b', sendUpdates b' r c newval) else (b', [])

/-- Dispatch of one forwarded message by its destination's square monitor.
`pause` and the analysis triggers do not change any square's state. -/
def applyMsg (b : Board) (m : updateMsg) : Board × List updateMsg :=
  match m.action with
  | .set => setAt b m.destR m.destC m.val
  | .clear => clearAt b m.destR m.destC m.val
  | _ => (b, [])

/-- The board after one message, dropping the staged notifications. -/
def applyUpd (b : Board) (m : updateMsg) : Board :=
  (applyMsg b m).1

/-- The position-accumulation loops of `checkConstrainedSquares`: walk the
candidate positions of one value, appending positions not seen before until
the count passes `cap` (the source's `if cnt > 2 break` / `if cnt > 3
break`).  State: `(posMap, posArray, cnt)`. -/
def addPositions (cap : Nat) : List Nat → Nat × List Nat × Nat → Nat × List Nat × Nat
  | [], st => st
  | i :: rest, (posMap, posArray, cnt) =>
    if cnt > cap then (posMap, posArray, cnt)
    else if posMap &&& (1 <<< i) = 0 then
      addPositions cap rest (posMap ||| (1 <<< i), posArray ++ [i], cnt + 1)
    else
      addPositions cap rest (posMap, posArray, cnt)

/-- The two `clear` messages staged when a value pair is confined to two
squares.  In the source's `block` arm the second send reuses `posArray[0]`
for the column offset. -/
def pairClearMsgs (rcb : Nat) (isRCB : RcbSelect) (clearVal : squareVal)
    (posArray : List Nat) : List updateMsg :=
  let p0 := posArray.getD 0 0
  let p1 := posArray.getD 1 0
  match isRCB with
  | .row => [⟨clearVal, .clear, rcb, p0⟩, ⟨clearVal, .clear, rcb, p1⟩]
  | .column => [⟨clearVal, .clear, p0, rcb⟩, ⟨clearVal, .clear, p1, rcb⟩]
  | .block =>
    let rblock := rcb / 3 * 3
    let cblock := rcb % 3 * 3
    [⟨clearVal, .clear, rblock + p0 / 3, cblock + p0 % 3⟩,
     ⟨clearVal, .clear, rblock + p1 / 3, cblock + p0 % 3⟩]

/-- The three `clear` messages staged when a value triple is confined to
three squares. -/
def tripleClearMsgs (rcb : Nat) (isRCB : RcbSelect) (clearVal : squareVal)
    (posArray : List Nat) : List updateMsg :=
  let p0 := posArray.getD 0 0
  let p1 := posArray.getD 1 0
  let p2 := posArray.getD 2 0
  match isRCB with
  | .row => [⟨clearVal, .clear, rcb, p0⟩, ⟨clearVal, .clear, rcb, p1⟩,
             ⟨clearVal, .clear, rcb, p2⟩]
  | .column => [⟨clearVal, .clear, p0, rcb⟩, ⟨clearVal, .clear, p1, rcb⟩,
                ⟨clearVal, .clear, p2, rcb⟩]
  | .block =>
    let rblock := rcb / 3 * 3
    let cblock := rcb % 3 * 3
    [⟨clearVal, .clear, rblock + p0 / 3, cblock + p0 % 3⟩,
     ⟨clearVal, .clear, rblock + p1 / 3, cblock + p1 % 3⟩,
     ⟨clearVal, .clear, rblock + p2 / 3, cblock + p2 % 3⟩]

/-- `checkConstrainedSquares`: when two (three) unplaced values are together
confined to two (three) squares of the structure, stage `clear` of all other
values to those squares.  The innermost guard of the triple loop re-tests
`val2`, exactly as the source does. -/
def checkConstrainedSquares (unplacedValues : squareVal) (rcb : Nat)
    (isRCB : RcbSelect) (rcbPos : squareVal → List Nat) : List updateMsg :=
  let pairMsgs :=
    if onesCount16 unplacedValues > 2 then
      (List.range 8).foldl (fun ms k1 =>
        let val1 : squareVal := 1 <<< k1
        if unplacedValues &&& val1 = 0 then ms
        else
          (List.range' (k1 + 1) (8 - k1)).foldl (fun ms k2 =>
            let val2 : squareVal := 1 <<< k2
            if unplacedValues &&& val2 = 0 then ms
            else
              let st1 := addPositions 2 (rcbPos val1) (0, [], 0)
              let st2 := addPositions 2 (rcbPos val2) st1
              if st2.2.2 = 2 then
                ms ++ pairClearMsgs rcb isRCB (andNot blank (val1 ||| val2)) st2.2.1
              else ms) ms) []
    else []
  let tripleMsgs :=
    if onesCount16 unplacedValues > 3 then
      (List.range 7).foldl (fun ms k1 =>
        let val1 : squareVal := 1 <<< k1
        if unplacedValues &&& val1 = 0 then ms
        else
          (List.range' (k1 + 1) (7 - k1)).foldl (fun ms k2 =>
            let val2 : squareVal := 1 <<< k2
            if unplacedValues &&& val2 = 0 then ms
            else
              (List.range' (k2 + 1) (8 - k2)).foldl (fun ms k3 =>
                let val3 : squareVal := 1 <<< k3
                if unplacedValues &&& val2 = 0 then ms
                else
                  let st1 := addPositions 3 (rcbPos val1) (0, [], 0)
                  let st2 := addPositions 3 (rcbPos val2) st1
                  let st3 := addPositions 3 (rcbPos val3) st2
                  if st3.2.2 = 3 then
                    ms ++ tripleClearMsgs rcb isRCB
                      (andNot blank (val1 ||| val2 ||| val3)) st3.2.1
                  else ms) ms) ms) []
    else []
  pairMsgs ++ tripleMsgs

/-- Local index to (row, column) inside block `b` (the source's `blockpos`). -/
def blockpos (b j : Nat) : Nat × Nat := (b / 3 * 3 + j / 3, b % 3 * 3 + j % 3)

/-- The cell of structure `rcb` at local index `j`. -/
def rcbCell (bd : Board) (rcb j : Nat) : RcbSelect → Square
  | .row => bd rcb j
  | .column => bd j rcb
  | .block => bd (blockpos rcb j).1 (blockpos rcb j).2

/-- The candidate sets read for a candidate pair `(j1, j2)` in
`checkConstrainedValues`.  In the source's `block` arm `possVal1` is
assigned twice in a row, so `possVal2` keeps the zero value it was declared
with. -/
def pairVals (bd : Board) (rcb j1 j2 : Nat) : RcbSelect → squareVal × squareVal
  | .row => ((bd rcb j1).possVal, (bd rcb j2).possVal)
  | .column => ((bd j1 rcb).possVal, (bd j2 rcb).possVal)
  | .block => ((bd (blockpos rcb j2).1 (blockpos rcb j2).2).possVal, 0)

/-- `checkConstrainedValues`: two squares restricted to the same two values
(three squares whose candidates merge to three values) license clearing
those values from the rest of the structure.  The pair loop records which
squares were paired (`sqrPaired`), and the triple loop skips them. -/
def checkConstrainedValues (bd : Board) (rcb : Nat) (isRCB : RcbSelect) :
    List updateMsg :=
  let pvCnt : Nat → Nat := fun j => onesCount16 (rcbCell bd rcb j isRCB).possVal
  let unresolvedCnt := ((List.range 9).filter (fun j => 2 ≤ pvCnt j)).length
  let rcOf : Nat → Nat × Nat := fun j =>
    match isRCB with
    | .row => (rcb, j)
    | .column => (j, rcb)
    | .block => blockpos rcb j
  let pairSt :=
    if unresolvedCnt > 2 then
      (List.range 8).foldl (fun (st : Nat × List updateMsg) j1 =>
        if pvCnt j1 ≠ 2 then st
        else
          (List.range' (j1 + 1) (8 - j1)).foldl (fun st j2 =>
            if pvCnt j2 ≠ 2 then st
            else
              let pv := pairVals bd rcb j1 j2 isRCB
              if pv.1 = pv.2 then
                let paired := st.1 ||| (1 <<< j1) ||| (1 <<< j2)
                let ms := (List.range 9).foldl (fun ms j =>
                  if j = j1 ∨ j = j2 then ms
                  else
                    let rc := rcOf j
                    if (bd rc.1 rc.2).isFinal then ms
                    else ms ++ [⟨pv.1, .clear, rc.1, rc.2⟩]) st.2
                (paired, ms)
              else st) st) ((0 : Nat), ([] : List updateMsg))
    else (0, [])
  let sqrPaired := pairSt.1
  let tripleMsgs :=
    if unresolvedCnt > 3 then
      (List.range 7).foldl (fun ms j1 =>
        if sqrPaired.testBit j1 then ms
        else if pvCnt j1 ≠ 2 ∧ pvCnt j1 ≠ 3 then ms
        else
          (List.range' (j1 + 1) (7 - j1)).foldl (fun ms j2 =>
            if sqrPaired.testBit j2 then ms
            else if pvCnt j2 ≠ 2 ∧ pvCnt j2 ≠ 3 then ms
            else
              (List.range' (j2 + 1) (8 - j2)).foldl (fun ms j3 =>
                if sqrPaired.testBit j3 then ms
                else if pvCnt j3 ≠ 2 ∧ pvCnt j3 ≠ 3 then ms
                else
                  let mergeVal := (rcbCell bd rcb j1 isRCB).possVal |||
                                  (rcbCell bd rcb j2 isRCB).possVal |||
                                  (rcbCell bd rcb j3 isRCB).possVal
                  if onesCount16 mergeVal = 3 then
                    (List.range 9).foldl (fun ms j =>
                      if j = j1 ∨ j = j2 ∨ j = j3 then ms
                      else
                        let rc := rcOf j
                        if (bd rc.1 rc.2).isFinal then ms
                        else ms ++ [⟨mergeVal, .clear, rc.1, rc.2⟩]) ms
                  else ms) ms) ms) []
    else []
  pairSt.2 ++ tripleMsgs

/-- Candidate positions (columns) of `val` in row `r` (the `colPos` map of
`inspectRow`). -/
def rowPosList (bd : Board) (r : Nat) (val : squareVal) : List Nat :=
  (List.range 9).filter (fun j => (bd r j).possVal &&& val == val)

/-- Candidate positions (rows) of `val` in column `c` (the `rowPos` map of
`inspectCol`). -/
def colPosList (bd : Board) (c : Nat) (val : squareVal) : List Nat :=
  (List.range 9).filter (fun i => (bd i c).possVal &&& val == val)

/-- The loop `for val := one; val <= nine; val <<= 1`. -/
def valsList : List squareVal := [one, two, three, four, five, six, seven, eight, nine]

/-- The per-value loop of `inspectRow`: hidden singles become `set` messages,
a value confined to one block stages `clear`s to the block's other rows,
and a value with no position panics (`Except.error`).  Returns the surviving
`unplacedValues` and the staged messages. -/
def inspectRowVals (bd : Board) (r : Nat) :
    List squareVal → squareVal → Except String (squareVal × List updateMsg)
  | [], unplaced => .ok (unplaced, [])
  | val :: rest, unplaced =>
    let colPos := rowPosList bd r val
    if colPos.length = 0 then
      .error "this is a problem, number not found in row"
    else if colPos.length = 1 then
      let cPos := colPos.headD 0
      let here := if (bd r cPos).isFinal then [] else [⟨val, .set, r, cPos⟩]
      (inspectRowVals bd r rest (andNot unplaced val)).map fun x =>
        (x.1, here ++ x.2)
    else
      let cPosLow := colPos.headD 0
      let cPosHigh := colPos.getLastD 0
      let here :=
        if cPosLow / 3 = cPosHigh / 3 then
          let cb := cPosLow / 3 * 3
          let rb := r / 3 * 3
          (List.range 3).foldl (fun ms di =>
            let ri := rb + di
            if ri = r then ms
            else ms ++ (List.range 3).map (fun dj => ⟨val, .clear, ri, cb + dj⟩)) []
        else []
      (inspectRowVals bd r rest unplaced).map fun x => (x.1, here ++ x.2)

/-- `inspectRow(r, c)` (the `c` argument is unused by the source as well). -/
def inspectRow (bd : Board) (r _c : Nat) : Except String (List updateMsg) :=
  (inspectRowVals bd r valsList blank).map fun x =>
    x.2 ++ checkConstrainedSquares x.1 r .row (rowPosList bd r) ++
      checkConstrainedValues bd r .row

/-- The per-value loop of `inspectCol`. -/
def inspectColVals (bd : Board) (c : Nat) :
    List squareVal → squareVal → Except String (squareVal × List updateMsg)
  | [], unplaced => .ok (unplaced, [])
  | val :: rest, unplaced =>
    let rowPos := colPosList bd c val
    if rowPos.length = 0 then
      .error "this is a problem, number not found in column"
    else if rowPos.length = 1 then
      let rPos := rowPos.headD 0
      let here := if (bd rPos c).isFinal then [] else [⟨val, .set, rPos, c⟩]
      (inspectColVals bd c rest (andNot unplaced val)).map fun x =>
        (x.1, here ++ x.2)
    else
      let rPosLow := rowPos.headD 0
      let rPosHigh := rowPos.getLastD 0
      let here :=
        if rPosLow / 3 = rPosHigh / 3 then
          let rb := rPosLow / 3 * 3
          let cb := c / 3 * 3
          (List.range 3).foldl (fun ms dj =>
            let ci := cb + dj
            if ci = c then ms
            else ms ++ (List.range 3).map (fun di => ⟨val, .clear, rb + di, ci⟩)) []
        else []
      (inspectColVals bd c rest unplaced).map fun x => (x.1, here ++ x.2)

/-- `inspectCol(r, c)` (the `r` argument is unused by the source as well). -/
def inspectCol (bd : Board) (_r c : Nat) : Except String (List updateMsg) :=
  (inspectColVals bd c valsList blank).map fun x =>
    x.2 ++ checkConstrainedSquares x.1 c .column (colPosList bd c) ++
      checkConstrainedValues bd c .column

/-- `blockRowPos`: candidate cells of `val` in the block, scanned row-major. -/
def blockRowPosList (bd : Board) (rb cb : Nat) (val : squareVal) : List (Nat × Nat) :=
  (List.range 9).filterMap (fun p =>
    let i := rb + p / 3
    let j := cb + p % 3
    if (bd i j).possVal &&& val == val then some (i, j) else none)

/-- `blockColPos`: the same cells, scanned column-major. -/
def blockColPosList (bd : Board) (rb cb : Nat) (val : squareVal) : List (Nat × Nat) :=
  (List.range 9).filterMap (fun p =>
    let j := cb + p / 3
    let i := rb + p % 3
    if (bd i j).possVal &&& val == val then some (i, j) else none)

/-- The per-value loop of `inspectBlock`.  When all candidate positions of a
value share one row (column), the staged `clear`s go to the block's cells in
the other rows (columns) of the block itself. -/
def inspectBlockVals (bd : Board) (rb cb : Nat) :
    List squareVal → squareVal → Except String (squareVal × List updateMsg)
  | [], unplaced => .ok (unplaced, [])
  | val :: rest, unplaced =>
    let blockRowPos := blockRowPosList bd rb cb val
    let blockColPos := blockColPosList bd rb cb val
    if blockRowPos.length ≠ blockColPos.length then
      .error "these should be equal"
    else if blockRowPos.length = 0 then
      .error "this is a problem, number not found in block"
    else if blockRowPos.length = 1 then
      let rPos := (blockRowPos.headD (0, 0)).1
      let cPos := (blockRowPos.headD (0, 0)).2
      let here := if (bd rPos cPos).isFinal then [] else [⟨val, .set, rPos, cPos⟩]
      (inspectBlockVals bd rb cb rest (andNot unplaced val)).map fun x =>
        (x.1, here ++ x.2)
    else
      let rPosLow := (blockRowPos.headD (0, 0)).1
      let rPosHigh := (blockRowPos.getLastD (0, 0)).1
      let cPosLow := (blockColPos.headD (0, 0)).2
      let cPosHigh := (blockColPos.getLastD (0, 0)).2
      let rowMsgs :=
        if rPosLow = rPosHigh then
          (List.range 3).foldl (fun ms di =>
            let ri := rb + di
            if ri = rPosLow then ms
            else ms ++ (List.range 3).map (fun dj => ⟨val, .clear, ri, cb + dj⟩)) []
        else []
      let colMsgs :=
        if cPosLow = cPosHigh then
          (List.range 3).foldl (fun ms dj =>
            let ci := cb + dj
            if ci = cPosLow then ms
            else ms ++ (List.range 3).map (fun di => ⟨val, .clear, rb + di, ci⟩)) []
        else []
      (inspectBlockVals bd rb cb rest unplaced).map fun x =>
        (x.1, rowMsgs ++ colMsgs ++ x.2)

/-- `blockPos`: local positions 0..8 of `val`'s candidate cells inside the
block. -/
def blockPosLocal (bd : Board) (rb cb : Nat) (val : squareVal) : List Nat :=
  (blockRowPosList bd rb cb val).map (fun bp => 3 * (bp.1 % 3) + bp.2 % 3)

/-- `inspectBlock(r, c)` for the block containing `(r, c)`. -/
def inspectBlock (bd : Board) (r c : Nat) : Except String (List updateMsg) :=
  let rb := r / 3 * 3
  let cb := c / 3 * 3
  let rcb := 3 * (rb / 3) + cb / 3
  (inspectBlockVals bd rb cb valsList blank).map fun x =>
    x.2 ++ checkConstrainedSquares x.1 rcb .block (blockPosLocal bd rb cb) ++
      checkConstrainedValues bd rcb .block

/-- `inspectRCB`: one row analysis per row `i` (delegated to monitor
`(i, i)`), one column analysis per column (monitor `(i, (i+1) % 9)`), one
block analysis per block (monitors `(i, j)`, `i ∈ {0,3,6}`, `j ∈ {2,5,8}`). -/
def inspectAll (bd : Board) : Except String (List updateMsg) := do
  let rowMs ← (List.range 9).foldlM (fun acc i =>
    (inspectRow bd i i).map (fun ms => acc ++ ms)) ([] : List updateMsg)
  let colMs ← (List.range 9).foldlM (fun acc i =>
    (inspectCol bd i ((i + 1) % 9)).map (fun ms => acc ++ ms)) rowMs
  ([0, 3, 6] : List Nat).foldlM (fun acc i =>
    ([2, 5, 8] : List Nat).foldlM (fun acc2 j =>
      (inspectBlock bd i j).map (fun ms => acc2 ++ ms)) acc) colMs

/-- `forwardMsgs` followed by an applying phase: the staged queue is drained
in FIFO order and each message is processed by its destination's monitor;
the notifications staged by finalizations are collected for the next drain. -/
def applyAll (bd : Board) (msgs : List updateMsg) : Board × List updateMsg :=
  msgs.foldl (fun st m =>
    let next := applyMsg st.1 m
    (next.1, st.2 ++ next.2)) (bd, [])

/-- One iteration of `roundLooper`'s loop: drain and apply the staged
messages, run the 27 structure analyses on the resulting board, then drain
and apply the finalization notifications followed by the analysis output.
The returned list is what the next iteration will drain. -/
def fullRound (bd : Board) (staged : List updateMsg) :
    Except String (Board × List updateMsg) := do
  let st1 := applyAll bd staged
  let anl ← inspectAll st1.1
  let st2 := applyAll st1.1 (st1.2 ++ anl)
  .ok st2

/-- `n` iterations of `roundLooper`'s loop. -/
def iterFullRound : Nat → Board × List updateMsg → Except String (Board × List updateMsg)
  | 0, st => .ok st
  | n + 1, st => do
    let st' ← fullRound st.1 st.2
    iterFullRound n st'

/-- The only condition on which `roundLooper`'s loop stops (`abortFlag`,
i.e. `wgSqrsDone` reaching zero): every square is finalized. -/
def allDone (bd : Board) : Bool :=
  (List.range 9).all (fun i => (List.range 9).all (fun j => (bd i j).isFinal))

/-- `intToVal`: puzzle digit to initial mask (`0` maps to `blank`). -/
def intToVal (n : Nat) : squareVal :=
  [blank, one, two, three, four, five, six, seven, eight, nine].getD n 0

/-- The state `main` gives every square before any message is processed. -/
def initBoard : Board := fun _ _ => ⟨blank, false⟩

/-- The field loop of `captureBoard` for row `i`: each in-range field is
translated and delivered immediately (a `set` then a `pause` to that cell);
an out-of-range field aborts with an error, after the earlier deliveries. -/
def captureFields (i : Nat) : List Int → Nat → List updateMsg × Option String
  | [], _ => ([], none)
  | x :: rest, j =>
    if x < 0 ∨ x > 9 then ([], some "Invalid input line")
    else
      let next := captureFields i rest (j + 1)
      (⟨intToVal x.toNat, .set, i, j⟩ :: ⟨0, .pause, i, j⟩ :: next.1, next.2)

/-- One `Fscanf` line of `captureBoard`: exactly nine numeric fields, or a
read error (covering both the `err != nil` and the `n != 9` returns). -/
def captureRow (lines : List (List Int)) (i : Nat) : List updateMsg × Option String :=
  let l := lines.getD i []
  if l.length ≠ 9 then ([], some "Error reading file")
  else captureFields i l 0

/-- The nine-row loop of `captureBoard`: rows are processed in order and the
first malformed row stops the loop with an error, keeping the messages
already delivered. -/
def captureRows (lines : List (List Int)) : List Nat → List updateMsg × Option String
  | [] => ([], none)
  | i :: rest =>
    let row := captureRow lines i
    match row.2 with
    | some err => (row.1, some err)
    | none =>
      let next := captureRows lines rest
      (row.1 ++ next.1, next.2)

/-- `captureBoard`, abstracted over pre-tokenized numeric input lines:
returns the messages delivered to the square monitors together with the
load error, if any. -/
def captureBoard (lines : List (List Int)) : List updateMsg × Option String :=
  captureRows lines (List.range 9)

/-- A line of the input file that `captureBoard` accepts: nine fields, each
in `[0, 9]`. -/
def wellFormedLine (l : List Int) : Prop :=
  l.length = 9 ∧ ∀ x ∈ l, 0 ≤ x ∧ x ≤ 9

instance (l : List Int) : Decidable (wellFormedLine l) := by
  unfold wellFormedLine; infer_instance

/-- The effect of one `set`/`clear` message on its destination square alone
(the state part of `squareMonitor`'s handling; `pause` and the analysis
triggers leave the square unchanged). -/
def cellStep (sq : Square) (m : updateMsg) : Square :=
  match m.action with
  | .set =>
    if sq.isFinal then sq
    else if sq.possVal = m.val then sq
    else ⟨m.val, finalCheckVal m.val⟩
  | .clear =>
    if sq.isFinal then sq
    else
      let newval := andNot sq.possVal m.val
      if newval = sq.possVal then sq
      else ⟨newval, finalCheckVal newval⟩
  | _ => sq

/-! ### Concrete inputs used by the counterexamples and evaluations -/

/-- A board whose square (0,0) has exactly the two candidates {1, 2}. -/
def c12Board : Board := fun i j =>
  if i = 0 ∧ j = 0 then ⟨3, false⟩ else ⟨blank, false⟩

/-- A board whose square (0,0) has exactly the two candidates {2, 3}. -/
def c23Board : Board := fun i j =>
  if i = 0 ∧ j = 0 then ⟨6, false⟩ else ⟨blank, false⟩

/-- A board whose square (0,0) is finalized to value 1. -/
def finalCellBoard : Board := fun i j =>
  if i = 0 ∧ j = 0 then ⟨1, true⟩ else ⟨blank, false⟩

/-- A board where, inside block 0, candidate 1 appears only in row 0: the
squares of block 0 outside row 0 carry the mask `blank &^ one = 510`. -/
def lockedRowBoard : Board := fun i j =>
  if (i = 1 ∨ i = 2) ∧ j < 3 then ⟨510, false⟩ else ⟨blank, false⟩

/-- A board where squares (0,0) and (0,1) both have exactly the candidate
set {1, 2} (mask 3) — a naked pair in row 0 and in block 0. -/
def pairBoard : Board := fun i j =>
  if i = 0 ∧ (j = 0 ∨ j = 1) then ⟨3, false⟩ else ⟨blank, false⟩

/-- Candidate positions inside a block: values 1 and 2 are confined to the
local cells 0 and 4 (the block's squares (0,0) and (1,1)), value 3 spans
cells 0, 4 and 8; the other six values are placed. -/
def pairPosFn : squareVal → List Nat := fun v =>
  if v = 1 ∨ v = 2 then [0, 4] else if v = 4 then [0, 4, 8] else []

/-- A puzzle file whose first line is well formed and whose second line has
only eight fields. -/
def badInput : List (List Int) :=
  [[1, 0, 0, 0, 0, 0, 0, 0, 0], [1, 2, 3, 4, 5, 6, 7, 8]]

end Sudoku

namespace Sudoku

/-! ### Helper lemmas -/

theorem andNot_testBit (a b k : Nat) :
    (andNot a b).testBit k = (a.testBit k && !b.testBit k) := by
  simp only [andNot, Nat.testBit_xor, Nat.testBit_land]
  cases a.testBit k <;> cases b.testBit k <;> rfl

theorem andNot_idem (a b : Nat) : andNot (andNot a b) b = andNot a b := by
  apply Nat.eq_of_testBit_eq
  intro k
  simp only [andNot_testBit]
  cases a.testBit k <;> cases b.testBit k <;> rfl

theorem andNot_land_self (a b : Nat) : andNot a b &&& a = andNot a b := by
  apply Nat.eq_of_testBit_eq
  intro k
  simp only [Nat.testBit_land, andNot_testBit]
  cases a.testBit k <;> cases b.testBit k <;> rfl

theorem land_self (a : Nat) : a &&& a = a := by
  apply Nat.eq_of_testBit_eq
  intro k
  simp only [Nat.testBit_land]
  cases a.testBit k <;> rfl

theorem updateBoard_self (b : Board) (r c : Nat) (sq : Square) :
    updateBoard b r c sq r c = sq := by
  simp [updateBoard]

theorem clearAt_twice (b : Board) (r c mask : Nat) :
    (clearAt (clearAt b r c mask).1 r c mask).1 = (clearAt b r c mask).1 ∧
    (clearAt b r c mask).2 ++ (clearAt (clearAt b r c mask).1 r c mask).2 =
      (clearAt b r c mask).2 := by
  by_cases h1 : (b r c).isFinal
  · simp [clearAt, h1]
  · by_cases h2 : andNot (b r c).possVal mask = (b r c).possVal
    · simp [clearAt, h1, h2]
    · by_cases h3 : finalCheckVal (andNot (b r c).possVal mask) = true
      · have hres : clearAt b r c mask =
            (updateBoard b r c
               ⟨andNot (b r c).possVal mask,
                finalCheckVal (andNot (b r c).possVal mask)⟩,
             sendUpdates
               (updateBoard b r c
                  ⟨andNot (b r c).possVal mask,
                   finalCheckVal (andNot (b r c).possVal mask)⟩) r c
               (andNot (b r c).possVal mask)) := by
          simp [clearAt, h1, h2, h3]
        rw [hres]
        simp [clearAt, updateBoard_self, h3]
      · have hres : clearAt b r c mask =
            (updateBoard b r c
               ⟨andNot (b r c).possVal mask,
                finalCheckVal (andNot (b r c).possVal mask)⟩, []) := by
          simp [clearAt, h1, h2, h3]
        rw [hres]
        simp [clearAt, updateBoard_self, h3, andNot_idem]

theorem setAt_final (b : Board) (r c : Nat) (v : squareVal)
    (h : (b r c).isFinal = true) : setAt b r c v = (b, []) := by
  simp [setAt, h]

theorem clearAt_final (b : Board) (r c : Nat) (mask : squareVal)
    (h : (b r c).isFinal = true) : clearAt b r c mask = (b, []) := by
  simp [clearAt, h]

theorem clearAt_subset (b : Board) (r c mask : Nat) :
    ((clearAt b r c mask).1 r c).possVal &&& (b r c).possVal =
      ((clearAt b r c mask).1 r c).possVal := by
  by_cases h1 : (b r c).isFinal
  · simp [clearAt, h1, land_self]
  · by_cases h2 : andNot (b r c).possVal mask = (b r c).possVal
    · simp [clearAt, h1, h2, land_self]
    · by_cases h3 : finalCheckVal (andNot (b r c).possVal mask) = true <;>
        simp [clearAt, h1, h2, h3, updateBoard_self, andNot_land_self]

theorem setAt_subset (b : Board) (r c : Nat) (v : squareVal)
    (h : v &&& (b r c).possVal = v) :
    ((setAt b r c v).1 r c).possVal &&& (b r c).possVal =
      ((setAt b r c v).1 r c).possVal := by
  by_cases h1 : (b r c).isFinal
  · simp [setAt, h1, land_self]
  · by_cases h2 : (b r c).possVal = v
    · simp [setAt, h1, h2, land_self]
    · by_cases h3 : finalCheckVal v = true <;>
        simp [setAt, h1, h2, h3, updateBoard_self, h]

theorem applyUpd_apply (b : Board) (m : updateMsg) (i j : Nat) :
    applyUpd b m i j =
      if i = m.destR ∧ j = m.destC then cellStep (b m.destR m.destC) m
      else b i j := by
  obtain ⟨val, act, dR, dC⟩ := m
  cases act <;>
    simp only [applyUpd, applyMsg, cellStep, setAt, clearAt] <;>
    split_ifs with h1 <;> simp_all [updateBoard]

theorem captureFields_none (i : Nat) :
    ∀ (l : List Int) (j : Nat),
      (captureFields i l j).2 = none ↔ ∀ x ∈ l, 0 ≤ x ∧ x ≤ 9
  | [], j => by simp [captureFields]
  | x :: rest, j => by
    by_cases h : x < 0 ∨ x > 9
    · simp only [captureFields, if_pos h]
      constructor
      · intro hc; cases hc
      · intro hall
        rcases h with h | h
        · exact absurd (hall x (by simp)).1 (by omega)
        · exact absurd (hall x (by simp)).2 (by omega)
    · simp only [captureFields, if_neg h]
      rw [captureFields_none i rest (j + 1)]
      constructor
      · intro hall y hy
        rcases List.mem_cons.1 hy with rfl | hy
        · constructor <;> omega
        · exact hall y hy
      · intro hall y hy
        exact hall y (List.mem_cons_of_mem _ hy)

theorem captureRow_none (lines : List (List Int)) (i : Nat) :
    (captureRow lines i).2 = none ↔ wellFormedLine (lines.getD i []) := by
  unfold captureRow wellFormedLine
  by_cases h : (lines.getD i []).length = 9
  · simp only [h, if_neg (by omega : ¬(9 : Nat) ≠ 9)]
    rw [captureFields_none]
    simp [h]
  · rw [if_pos h]
    simp only [Prod.snd]
    constructor
    · intro hc; cases hc
    · intro hall
      exact absurd hall.1 h

theorem captureRows_none (lines : List (List Int)) :
    ∀ is_, (captureRows lines is_).2 = none ↔
      ∀ i ∈ is_, wellFormedLine (lines.getD i [])
  | [] => by simp [captureRows]
  | i :: rest => by
    simp only [captureRows]
    rcases hrow : (captureRow lines i).2 with _ | err
    · simp only []
      rw [captureRows_none lines rest]
      have hwf : wellFormedLine (lines.getD i []) := (captureRow_none lines i).1 hrow
      constructor
      · intro hall y hy
        rcases List.mem_cons.1 hy with rfl | hy
        · exact hwf
        · exact hall y hy
      · intro hall y hy
        exact hall y (List.mem_cons_of_mem _ hy)
    · simp only []
      constructor
      · intro hc; cases hc
      · intro hall
        have := (captureRow_none lines i).2 (hall i (by simp))
        rw [hrow] at this; cases this

set_option maxRecDepth 100000 in
theorem fullRound_init : fullRound initBoard [] = .ok (initBoard, []) := by rfl

end Sudoku

namespace Sudoku

/-! ### Claim theorems -/

set_option maxRecDepth 100000

/-- Claim C1.  The claim says a `Clear` that empties a non-final cell's
candidate set surfaces a contradiction error that stops the run.  The code
does the opposite: evaluated on a non-finalized cell with candidates {1, 2}
(mask 3), `Clear(3)` leaves the cell with an empty candidate set
(`possVal = 0`), not finalized, stages no message, and the handler has no
error path at all (`finalCheckVal 0` is `false`, so processing just
continues with the corrupted state). -/
theorem clear_to_empty_is_silent :
    (c12Board 0 0).isFinal = false ∧
    ((clearAt c12Board 0 0 3).1 0 0).possVal = 0 ∧
    ((clearAt c12Board 0 0 3).1 0 0).isFinal = false ∧
    (clearAt c12Board 0 0 3).2 = [] := by
  refine ⟨by decide, by decide, by decide, by decide⟩

/-- Claim C2.  On a board where candidate 1 inside block 0 is confined to
row 0 (cells (0,0), (0,1), (0,2)), the claim expects `Clear(1)` staged to
the cells of row 0 outside the block, (0,3) .. (0,8).  The block analysis
instead stages `Clear(1)` to the six cells of the block itself outside
row 0 — cells that by assumption cannot hold candidate 1 — and stages
nothing outside the block. -/
theorem inspectBlock_locked_row_targets_inside_block :
    inspectBlock lockedRowBoard 0 2 = .ok
      [⟨1, .clear, 1, 0⟩, ⟨1, .clear, 1, 1⟩, ⟨1, .clear, 1, 2⟩,
       ⟨1, .clear, 2, 0⟩, ⟨1, .clear, 2, 1⟩, ⟨1, .clear, 2, 2⟩] := by
  rfl

/-- Claim C3.  Squares (0,0) and (0,1) of `pairBoard` are two cells with
the identical candidate set {1, 2} of size 2.  Analyzed as row 0, the pair
rule stages the seven expected `Clear`s; analyzed as block 0, it stages
nothing: the source's block arm assigns `possVal1` twice (a typo), so
`possVal2` keeps its zero value and the equality test never succeeds. -/
theorem blockPairRule_never_fires :
    checkConstrainedValues pairBoard 0 .block = [] ∧
    checkConstrainedValues pairBoard 0 .row =
      [⟨3, .clear, 0, 2⟩, ⟨3, .clear, 0, 3⟩, ⟨3, .clear, 0, 4⟩,
       ⟨3, .clear, 0, 5⟩, ⟨3, .clear, 0, 6⟩, ⟨3, .clear, 0, 7⟩,
       ⟨3, .clear, 0, 8⟩] := by
  refine ⟨by decide, by decide⟩

/-- Claim C4.  In block 0, values 1 and 2 (unplaced, with unplaced mask 7)
are together confined to the local cells 0 and 4, i.e. squares (0,0) and
(1,1).  The claim expects `Clear` of all other values (mask 508) staged to
exactly those two squares.  The second staged message instead targets
(1,0): the source's block arm reuses `posArray[0]` for the column offset of
the second send, and the confining square (1,1) receives nothing. -/
theorem pairConstrainedSquares_block_wrong_target :
    checkConstrainedSquares 7 0 .block pairPosFn =
      [⟨508, .clear, 0, 0⟩, ⟨508, .clear, 1, 0⟩] ∧
    (⟨508, .clear, 1, 1⟩ : updateMsg) ∉ checkConstrainedSquares 7 0 .block pairPosFn := by
  refine ⟨by decide, by decide⟩

/-- Claim C5.  The all-zeros puzzle seeds every square with `Set(blank)`, a
no-op, so the solver reaches the all-blank `initBoard` with zero finalized
squares.  Every full round on that board stages zero requests (it is a
fixpoint of `fullRound`), yet the only exit condition of `roundLooper`'s
loop — `allDone`, all 81 squares finalized — is false, so the loop runs
forever for every number of iterations; the code has no stalled outcome at
all, against the claim's required Stalled report. -/
theorem roundLooper_loops_forever_on_stall :
    ∀ n, iterFullRound n (initBoard, []) = .ok (initBoard, []) ∧
      allDone initBoard = false := by
  intro n
  refine ⟨?_, by decide⟩
  induction n with
  | zero => rfl
  | succ k ih =>
    show (fullRound initBoard []).bind (fun st' => iterFullRound k st') = _
    rw [fullRound_init]
    exact ih

theorem roundLooper_loops_forever_on_stall_witness :
    iterFullRound 3 (initBoard, []) = .ok (initBoard, []) ∧
      allDone initBoard = false :=
  roundLooper_loops_forever_on_stall 3

/-- Claim C6, counterexample.  Candidate-set monotonicity fails for `set`
processing: square (0,0) of `c23Board` has candidates {2, 3} (mask 6) —
digit 1 was eliminated — yet processing `Set(1)` replaces the candidate
set with {1}, re-adding the eliminated digit, so the new candidate set is
not a subset of the old one. -/
theorem set_readds_eliminated_candidate :
    ¬ (((setAt c23Board 0 0 1).1 0 0).possVal &&& (c23Board 0 0).possVal =
        ((setAt c23Board 0 0 1).1 0 0).possVal) := by
  decide

/-- Claim C6, amended.  Finalized cells are never touched by `set` or
`clear` (so the finalized count is non-decreasing), and `clear` processing
always shrinks the target's candidate set; `set` processing keeps the
candidate set non-increasing only when the message's mask is a subset of
the target's current candidates — otherwise it re-adds eliminated digits,
as the counterexample shows. -/
theorem round_monotonicity_amended :
    (∀ (b : Board) (r c : Nat) (m : squareVal), (b r c).isFinal = true →
       clearAt b r c m = (b, []) ∧ setAt b r c m = (b, [])) ∧
    (∀ (b : Board) (r c mask : Nat),
       ((clearAt b r c mask).1 r c).possVal &&& (b r c).possVal =
         ((clearAt b r c mask).1 r c).possVal) ∧
    (∀ (b : Board) (r c : Nat) (v : squareVal), v &&& (b r c).possVal = v →
       ((setAt b r c v).1 r c).possVal &&& (b r c).possVal =
         ((setAt b r c v).1 r c).possVal) :=
  ⟨fun b r c m h => ⟨clearAt_final b r c m h, setAt_final b r c m h⟩,
   clearAt_subset,
   setAt_subset⟩

theorem round_monotonicity_amended_witness :
    (clearAt finalCellBoard 0 0 4 = (finalCellBoard, []) ∧
      setAt finalCellBoard 0 0 4 = (finalCellBoard, [])) ∧
    ((clearAt c23Board 0 0 2).1 0 0).possVal &&& (c23Board 0 0).possVal =
      ((clearAt c23Board 0 0 2).1 0 0).possVal ∧
    ((setAt c23Board 0 0 2).1 0 0).possVal &&& (c23Board 0 0).possVal =
      ((setAt c23Board 0 0 2).1 0 0).possVal :=
  ⟨round_monotonicity_amended.1 finalCellBoard 0 0 4 (by decide),
   round_monotonicity_amended.2.1 c23Board 0 0 2,
   round_monotonicity_amended.2.2 c23Board 0 0 2 (by decide)⟩

/-- Claim C7, counterexample.  A `Set` and a `Clear` addressed to the same
cell do not commute: square (0,0) of `c12Board` holds {1, 2}; applying
`Set(1)` then `Clear(1)` finalizes the cell to 1 (the later `Clear` is
ignored on the finalized cell), while `Clear(1)` then `Set(1)` finalizes
it to 2 (the `Clear` leaves the singleton {2}, which finalizes, and the
later `Set` is ignored).  The two orders yield different board states. -/
theorem set_clear_same_cell_noncommutative :
    applyUpd (applyUpd c12Board ⟨1, .set, 0, 0⟩) ⟨1, .clear, 0, 0⟩ 0 0 ≠
      applyUpd (applyUpd c12Board ⟨1, .clear, 0, 0⟩) ⟨1, .set, 0, 0⟩ 0 0 := by
  decide

/-- Claim C7, amended.  Two update requests addressed to distinct cells
yield the same board state in either application order (each handler
mutates only its destination square); commutation for a `Set` and a
`Clear` addressed to the same cell fails, as the counterexample shows. -/
theorem distinct_target_requests_commute (b : Board) (m1 m2 : updateMsg)
    (h : m1.destR ≠ m2.destR ∨ m1.destC ≠ m2.destC) (i j : Nat) :
    applyUpd (applyUpd b m1) m2 i j = applyUpd (applyUpd b m2) m1 i j := by
  have hne : ¬(m2.destR = m1.destR ∧ m2.destC = m1.destC) := by
    rintro ⟨h1, h2⟩; rcases h with h | h <;> simp_all
  have hne' : ¬(m1.destR = m2.destR ∧ m1.destC = m2.destC) := by
    rintro ⟨h1, h2⟩; rcases h with h | h <;> simp_all
  simp only [applyUpd_apply]
  by_cases hij1 : i = m1.destR ∧ j = m1.destC
  · obtain ⟨rfl, rfl⟩ := hij1
    simp [hne, hne']
  · by_cases hij2 : i = m2.destR ∧ j = m2.destC
    · obtain ⟨rfl, rfl⟩ := hij2
      simp [hne, hne', hij1]
    · simp [hij1, hij2]

theorem distinct_target_requests_commute_witness :
    applyUpd (applyUpd initBoard ⟨1, .set, 0, 0⟩) ⟨2, .clear, 3, 3⟩ 0 0 =
      applyUpd (applyUpd initBoard ⟨2, .clear, 3, 3⟩) ⟨1, .set, 0, 0⟩ 0 0 :=
  distinct_target_requests_commute initBoard ⟨1, .set, 0, 0⟩ ⟨2, .clear, 3, 3⟩
    (Or.inl (by decide)) 0 0

/-- Claim C8, counterexample.  For `badInput` — first line well formed,
second line with eight fields — the loader reports a load error, but the
`Set` for cell (0,0) (and the rest of line 0's messages) has already been
delivered to the cell actors, which `main` starts before calling the
loader; so "no Set request from that file ever reaches a cell actor" is
false. -/
theorem malformed_input_sets_already_delivered :
    (captureBoard badInput).2.isSome = true ∧
      (⟨1, .set, 0, 0⟩ : updateMsg) ∈ (captureBoard badInput).1 := by
  refine ⟨by decide, by decide⟩

/-- Claim C8, amended.  Every malformed puzzle file (some line among the
first nine has the wrong field count or a field outside 0..9) makes the
loader return a load error, on which `main` exits non-zero; the cell
actors, however, are started before loading, and the messages of the lines
preceding the malformed one are already delivered. -/
theorem malformed_input_yields_load_error (lines : List (List Int))
    (h : ∃ i, i < 9 ∧ ¬ wellFormedLine (lines.getD i [])) :
    (captureBoard lines).2.isSome = true := by
  obtain ⟨i, hi, hbad⟩ := h
  rw [Option.isSome_iff_ne_none]
  intro hnone
  exact hbad ((captureRows_none lines (List.range 9)).1 hnone i
    (List.mem_range.2 hi))

theorem malformed_input_yields_load_error_witness :
    (captureBoard badInput).2.isSome = true :=
  malformed_input_yields_load_error badInput ⟨1, by decide, by decide⟩

/-- Claim C9.  Applying the same `Clear(mask)` twice yields the same board
state and the same staged peer notifications as applying it once (the
second application lands in the ignored-because-final or the no-change
branch and stages nothing), and applying any `Set` to an already-finalized
cell returns the board unchanged with nothing staged. -/
theorem clear_idempotent_and_set_final_noop :
    (∀ (b : Board) (r c mask : Nat),
       (clearAt (clearAt b r c mask).1 r c mask).1 = (clearAt b r c mask).1 ∧
       (clearAt b r c mask).2 ++ (clearAt (clearAt b r c mask).1 r c mask).2 =
         (clearAt b r c mask).2) ∧
    (∀ (b : Board) (r c : Nat) (v : squareVal), (b r c).isFinal = true →
       setAt b r c v = (b, [])) :=
  ⟨clearAt_twice, setAt_final⟩

theorem clear_idempotent_and_set_final_noop_witness :
    ((clearAt (clearAt c12Board 0 0 1).1 0 0 1).1 = (clearAt c12Board 0 0 1).1 ∧
      (clearAt c12Board 0 0 1).2 ++ (clearAt (clearAt c12Board 0 0 1).1 0 0 1).2 =
        (clearAt c12Board 0 0 1).2) ∧
    setAt finalCellBoard 0 0 8 = (finalCellBoard, []) :=
  ⟨clear_idempotent_and_set_final_noop.1 c12Board 0 0 1,
   clear_idempotent_and_set_final_noop.2 finalCellBoard 0 0 8 (by decide)⟩

/-- Claim C10.  A `Set` whose mask equals the non-finalized target's current
candidate set is a complete no-op — the board is returned unchanged,
nothing is finalized, and no peer notification is staged (the handler's
`possVal != msg.val` test fails and the message is dropped).  In
particular, `intToVal 0 = blank`, so seeding an unknown field delivers
`Set(blank)`, which leaves a square still in its initial state unchanged. -/
theorem set_equal_mask_noop :
    (∀ (b : Board) (r c : Nat) (v : squareVal),
       (b r c).isFinal = false → (b r c).possVal = v →
       setAt b r c v = (b, [])) ∧
    intToVal 0 = blank ∧
    (∀ r c, setAt initBoard r c (intToVal 0) = (initBoard, [])) := by
  refine ⟨?_, rfl, ?_⟩
  · intro b r c v hfin hval
    simp [setAt, hfin, hval]
  · intro r c
    simp [setAt, initBoard, intToVal]

theorem set_equal_mask_noop_witness :
    setAt c23Board 0 0 6 = (c23Board, []) :=
  set_equal_mask_noop.1 c23Board 0 0 6 (by decide) (by decide)

end Sudoku
